import Mathlib

/-!
Verification of the dual-format article parser and parallel bulk-loading
subsystem of `src/src/data/pipeline_create_and_load.py`.

The Python source is shallowly embedded below: pure parsing helpers become
Lean functions on `String`/`List Char`, the per-line scanning loop of
`parse_nyt_article` becomes a fold over a state structure, and the stateful
DuckDB load in `load_articles_parallel` becomes explicit state passing on a
`DbState` value, with a thrown exception inside a transaction modelled as a
boolean flag whose `true` branch leaves the table unchanged (rollback).
-/

namespace Pipeline

/-- Python `str.strip()` whitespace set (ASCII part): space, tab, newline,
carriage return, vertical tab, form feed. -/
def isPyWs (c : Char) : Bool :=
  c == ' ' || c == '\t' || c == '\n' || c == '\r' || c == '\x0b' || c == '\x0c'

/-- Python `s.strip()`: drop leading and trailing whitespace characters. -/
def pyStrip (s : String) : String :=
  ⟨((s.data.dropWhile isPyWs).reverse.dropWhile isPyWs).reverse⟩

/-- Python `s.startswith(p)`: `p` is a prefix of `s` (character-wise). -/
def pyStartsWith (s p : String) : Bool :=
  p.data.isPrefixOf s.data

/-- Characters of a list after the first `':'`.  Helper for
`line.split(':', 1)[1]`. -/
def afterColonChars : List Char → List Char
  | [] => []
  | c :: cs => if c = ':' then cs else afterColonChars cs

/-- Python `line.split(':', 1)[1]`: everything after the first colon.  In the
source every call site first checks `stripped_line.startswith('<label>:')`,
which guarantees a colon is present (hence the source's `except IndexError`
branch for a colon-free line is unreachable); on a colon-free string this
total version returns `""`. -/
def afterFirstColon (s : String) : String :=
  ⟨afterColonChars s.data⟩

/-- Split a character list at every occurrence of a separator character
(Python `s.split('<single char>')`): structurally recursive so that concrete
instances evaluate in the kernel. -/
def splitOnChar (sep : Char) : List Char → List (List Char)
  | [] => [[]]
  | c :: rest =>
      match splitOnChar sep rest with
      | [] => [[c]]
      | h :: t => if c = sep then [] :: h :: t else (c :: h) :: t

/-- Python `s.split('\n')` (the line split of `parse_nyt_article`). -/
def pySplitNl (s : String) : List String :=
  (splitOnChar '\n' s.data).map (fun l => ⟨l⟩)

/-- Fuel-indexed split on a non-empty separator `a :: sep`, scanning left to
right and consuming non-overlapping occurrences (Python `s.split(sep)`).
Each step consumes at least one character, so fuel `length + 1` never runs
out; the fuel argument only makes the recursion structural. -/
def splitOnSepAux (a : Char) (sep : List Char) : Nat → List Char → List (List Char)
  | _, [] => [[]]
  | 0, cs => [cs]
  | fuel + 1, c :: rest =>
      if (a :: sep).isPrefixOf (c :: rest) then
        [] :: splitOnSepAux a sep fuel (rest.drop sep.length)
      else
        match splitOnSepAux a sep fuel rest with
        | [] => [[c]]
        | h :: t => (c :: h) :: t

/-- Python `s.split(sep)` for a non-empty separator string (CPython raises
`ValueError` on an empty separator, which no call site passes; that case
returns `[s]` here). -/
def pySplit (s sep : String) : List String :=
  match sep.data with
  | [] => [s]
  | a :: rest => (splitOnSepAux a rest (s.data.length + 1) s.data).map (fun l => ⟨l⟩)

/-- Fuel-indexed deletion of every non-overlapping occurrence of the pattern
`a :: pat`, scanning left to right (Python `s.replace(pat, '')`). -/
def deleteOccsAux (a : Char) (pat : List Char) : Nat → List Char → List Char
  | _, [] => []
  | 0, cs => cs
  | fuel + 1, c :: rest =>
      if (a :: pat).isPrefixOf (c :: rest) then
        deleteOccsAux a pat fuel (rest.drop pat.length)
      else
        c :: deleteOccsAux a pat fuel rest

/-- Python `s.replace(pat, '')` for a non-empty pattern. -/
def pyDeleteAll (s pat : String) : String :=
  match pat.data with
  | [] => s
  | a :: rest => ⟨deleteOccsAux a rest (s.data.length + 1) s.data⟩

/-- ASCII hexadecimal digit test (`int(hex, 16)` digit set). -/
def isHexChar (c : Char) : Bool :=
  c.isDigit || ('a' ≤ c && c ≤ 'f') || ('A' ≤ c && c ≤ 'F')

/-- Python `s.strip('{}')`: drop leading and trailing `{` / `}` characters. -/
def stripBraces (s : String) : String :=
  let isBrace : Char → Bool := fun c => c == '{' || c == '}'
  ⟨((s.data.dropWhile isBrace).reverse.dropWhile isBrace).reverse⟩

/-- Embedding of `is_valid_uuid` (source lines 662-670): `uuid.UUID(key_str)`
succeeds iff, after deleting every `urn:` and `uuid:` occurrence, stripping
surrounding braces and removing hyphens, exactly 32 hexadecimal digits
remain (CPython `uuid.UUID.__init__` on a string argument).  Empty or `None`
input returns `False` before the attempt. -/
def is_valid_uuid (key : String) : Bool :=
  if key = "" then
    false
  else
    let h := pyDeleteAll (pyDeleteAll key "urn:") "uuid:"
    let h := stripBraces h
    let digits := h.data.filter (fun c => c ≠ '-')
    digits.length == 32 && digits.all isHexChar

/-- An `(key value, filepath, reason)` triple recorded for a malformed
natural key (spec's `BadKeyRecord`). -/
abbrev BadKey := String × String × String

/-- NYT loading configuration consumed by `parse_nyt_article`:
`config['loading']['nyt']['text_start_marker']` and `text_end_marker`. -/
structure NytConfig where
  text_start_marker : String
  text_end_marker : String
deriving DecidableEq, Repr

/-- Mutable loop state of the line scan in `parse_nyt_article`
(source lines 693-781): the fields of the `data` dict that the loop writes,
plus `bad_key_info`, `text_lines` and the marker flags. -/
structure NytLoopState where
  nyt_internal_id : Option String := none
  headline : Option String := none
  publication_date : Option String := none
  nyt_country_codes : Option String := none
  bad_key_info : Option BadKey := none
  text_lines : List String := []
  in_text_block : Bool := false
  found_start_marker : Bool := false
  found_end_marker : Bool := false
  warnings : List String := []
deriving DecidableEq, Repr

/-- The trailing `if in_text_block: text_lines.append(line)` at the bottom of
the loop body (source lines 770-771); skipped for blank lines and, via
`continue`, for the start-marker line. -/
def appendIfInText (st : NytLoopState) (line : String) : NytLoopState :=
  if st.in_text_block then { st with text_lines := st.text_lines ++ [line] } else st

/-- The `Key:` branch (source lines 732-741): store the raw key value and
record a bad-key triple when it is empty or fails UUID validation; a valid
key leaves `bad_key_info` unchanged. -/
def keyBranch (fp : String) (st : NytLoopState) (line : String) : NytLoopState :=
  let key := pyStrip (afterFirstColon line)
  { st with
    nyt_internal_id := some key
    bad_key_info :=
      if key = "" then some (key, fp, "Empty Key")
      else if is_valid_uuid key then st.bad_key_info
      else some (key, fp, "Invalid UUID")
    warnings := st.warnings ++
      (if key = "" then ["Empty Key value found: " ++ line]
       else if is_valid_uuid key then []
       else ["Malformed Key (UUID validation failed): " ++ key]) }

/-- Eight decimal digits (`re.match(r'^\d{8}$', date_str)`, ASCII digits). -/
def isEightDigits (s : String) : Bool :=
  s.data.length == 8 && s.data.all Char.isDigit

/-- Reformat `YYYYMMDD` to `YYYY-MM-DD`
(`f"{date_str[:4]}-{date_str[4:6]}-{date_str[6:]}"`). -/
def formatDate (s : String) : String :=
  ⟨s.data.take 4⟩ ++ "-" ++ ⟨(s.data.drop 4).take 2⟩ ++ "-" ++ ⟨s.data.drop 6⟩

/-- The `Date:` branch (source lines 746-756): an 8-digit value is stored
reformatted; an empty value is stored as `None`; any other value is stored
as `None` with a diagnostic warning. -/
def dateBranch (st : NytLoopState) (line : String) : NytLoopState :=
  let date_str := pyStrip (afterFirstColon line)
  if isEightDigits date_str then
    { st with publication_date := some (formatDate date_str) }
  else if date_str = "" then
    { st with publication_date := none
              warnings := st.warnings ++ ["Empty Date field found. Storing as NULL."] }
  else
    { st with publication_date := none
              warnings := st.warnings ++
                ["Non-standard date format: '" ++ date_str ++ "'. Storing as NULL."] }

/-- One iteration of the `for i, line in enumerate(lines)` loop of
`parse_nyt_article` (source lines 725-781), with the branches in source
order: blank skip, `Key:`, `Headline:`, `Date:`, `Countries:`, start marker
(with `continue`), end marker, then the `in_text_block` append. -/
def nytLineStep (cfg : NytConfig) (fp : String) (st : NytLoopState) (line : String) :
    NytLoopState :=
  let stripped := pyStrip line
  if stripped = "" then st
  else if pyStartsWith stripped "Key:" then
    appendIfInText (keyBranch fp st line) line
  else if pyStartsWith stripped "Headline:" then
    appendIfInText { st with headline := some (pyStrip (afterFirstColon line)) } line
  else if pyStartsWith stripped "Date:" then
    appendIfInText (dateBranch st line) line
  else if pyStartsWith stripped "Countries:" then
    appendIfInText { st with nyt_country_codes := some (pyStrip (afterFirstColon line)) } line
  else if pyStartsWith stripped cfg.text_start_marker then
    { st with in_text_block := true, found_start_marker := true }
  else if pyStartsWith stripped cfg.text_end_marker then
    appendIfInText { st with in_text_block := false, found_end_marker := true } line
  else
    appendIfInText st line

/-- The record fields of `raw.parsed_articles` that `parse_nyt_article` can
populate (the remaining columns of the `data` dict are always `None`). -/
structure NytRecord where
  source_filepath : String
  format_type : String := "NYT_2011_2014"
  headline : Option String
  body : Option String
  publication_date : Option String
  nyt_internal_id : String
  nyt_country_codes : Option String
deriving DecidableEq, Repr

/-- Result triple of `parse_nyt_article`: `(data | None, bad_key_info | None,
warnings)`. -/
structure NytParseResult where
  record : Option NytRecord
  badKey : Option BadKey
  warnings : List String
deriving DecidableEq, Repr

/-- Python `'\n'.join(lines)`. -/
def joinNl : List String → String
  | [] => ""
  | [l] => l
  | l :: ls => l ++ "\n" ++ joinNl ls

/-- The post-loop body assembly of `parse_nyt_article` (source lines
783-800): joined text lines when any were captured, otherwise the
marker-flag case split.  Returns the body value together with the warnings
the block appends. -/
def nytBodyPost (st : NytLoopState) : Option String × List String :=
  let keyStr := match st.nyt_internal_id with
    | some k => k
    | none => "None"
  if st.text_lines ≠ [] then
    (some (pyStrip (joinNl st.text_lines)), [])
  else if st.found_start_marker && st.found_end_marker then
    (some "", ["Text block markers found but no text content between them for key '"
               ++ keyStr ++ "'"])
  else if st.found_start_marker && !st.found_end_marker then
    -- `data['body'] = '\n'.join(text_lines).strip()` with `text_lines = []`
    -- yields the empty string, which is falsy, so no partial-text warning.
    (some "", ["Text block START marker found but NO END marker for key '"
               ++ keyStr ++ "'"])
  else if !st.found_start_marker && st.found_end_marker then
    (none, ["Text block END marker found but NO START marker for key '"
            ++ keyStr ++ "'"])
  else
    (none, [])

/-- The whole line scan of `parse_nyt_article` (source lines 718-781):
`lines = article_block.strip().split('\n')` followed by the loop, starting
from the freshly initialised `data` dict / flags. -/
def nytScan (cfg : NytConfig) (filepath article_block : String) : NytLoopState :=
  (pySplitNl (pyStrip article_block)).foldl (nytLineStep cfg filepath) {}

/-- Embedding of `parse_nyt_article` (source lines 672-810): strip the block,
split it into lines, fold the line scan, assemble the body, and apply the
final key check — a block without any `Key:` line returns no record and no
bad-key triple; otherwise the record is returned together with whatever
`bad_key_info` the scan produced. -/
def parse_nyt_article (cfg : NytConfig) (article_block : String) (filepath : String) :
    NytParseResult :=
  let st := nytScan cfg filepath article_block
  let bodyW := nytBodyPost st
  match st.nyt_internal_id with
  | none =>
      { record := none
        badKey := none
        warnings := st.warnings ++ bodyW.2 ++ ["No 'Key:' line found in this article block."] }
  | some k =>
      { record := some
          { source_filepath := filepath
            headline := st.headline
            body := bodyW.1
            publication_date := st.publication_date
            nyt_internal_id := k
            nyt_country_codes := st.nyt_country_codes }
        badKey := st.bad_key_info
        warnings := st.warnings ++ bodyW.2 }

/-- Per-block record/bad-key accumulation of `process_file_worker` for NYT
files (source lines 956-968): blank blocks are skipped; a block is appended
to the parsed list only when the parser returned a record, and its bad-key
triple is collected only in that case. -/
def nytBlocksAccum (cfg : NytConfig) (fp : String) (blocks : List String) :
    List NytRecord × List BadKey :=
  blocks.foldl (fun acc block =>
    let c := pyStrip block
    if c = "" then acc
    else
      let r := parse_nyt_article cfg c fp
      match r.record with
      | none => acc
      | some rec => (acc.1 ++ [rec], acc.2 ++ r.badKey.toList)) ([], [])

/-- A line that triggers the `Key:` branch of the scan loop. -/
def isKeyLine (l : String) : Bool := pyStartsWith (pyStrip l) "Key:"

/-- A line that triggers the `Date:` branch of the scan loop. -/
def isDateLine (l : String) : Bool := pyStartsWith (pyStrip l) "Date:"

lemma heads_eq_of_both_isPrefixOf {a b : Char} {as bs cs : List Char}
    (h1 : (a :: as).isPrefixOf cs = true) (h2 : (b :: bs).isPrefixOf cs = true) :
    a = b := by
  rw [List.isPrefixOf_iff_prefix] at h1 h2
  obtain ⟨t1, ht1⟩ := h1
  obtain ⟨t2, ht2⟩ := h2
  rw [← ht1] at ht2
  simpa using (congrArg List.head? ht2).symm

lemma pyStartsWith_excl {s p q : String} {a b : Char} {as bs : List Char}
    (hp : p.data = a :: as) (hq : q.data = b :: bs) (hab : a ≠ b)
    (h : pyStartsWith s p = true) : pyStartsWith s q = false := by
  cases h2 : pyStartsWith s q with
  | false => rfl
  | true =>
    unfold pyStartsWith at h h2
    rw [hp] at h
    rw [hq] at h2
    exact absurd (heads_eq_of_both_isPrefixOf h h2) hab

lemma not_key_of_date {s : String} (h : pyStartsWith s "Date:" = true) :
    pyStartsWith s "Key:" = false :=
  pyStartsWith_excl (p := "Date:") (q := "Key:") rfl rfl (by decide) h

lemma not_headline_of_date {s : String} (h : pyStartsWith s "Date:" = true) :
    pyStartsWith s "Headline:" = false :=
  pyStartsWith_excl (p := "Date:") (q := "Headline:") rfl rfl (by decide) h

lemma pyStartsWith_ne_empty {s p : String} {a : Char} {as : List Char}
    (hp : p.data = a :: as) (h : pyStartsWith s p = true) : s ≠ "" := by
  intro he
  subst he
  unfold pyStartsWith at h
  rw [hp] at h
  simp [List.isPrefixOf] at h

@[simp] lemma appendIfInText_key (st : NytLoopState) (l : String) :
    (appendIfInText st l).nyt_internal_id = st.nyt_internal_id := by
  unfold appendIfInText; split_ifs <;> rfl

@[simp] lemma appendIfInText_bad (st : NytLoopState) (l : String) :
    (appendIfInText st l).bad_key_info = st.bad_key_info := by
  unfold appendIfInText; split_ifs <;> rfl

@[simp] lemma appendIfInText_date (st : NytLoopState) (l : String) :
    (appendIfInText st l).publication_date = st.publication_date := by
  unfold appendIfInText; split_ifs <;> rfl

@[simp] lemma appendIfInText_warn (st : NytLoopState) (l : String) :
    (appendIfInText st l).warnings = st.warnings := by
  unfold appendIfInText; split_ifs <;> rfl

@[simp] lemma dateBranch_key (st : NytLoopState) (l : String) :
    (dateBranch st l).nyt_internal_id = st.nyt_internal_id := by
  simp only [dateBranch]; split_ifs <;> rfl

@[simp] lemma dateBranch_bad (st : NytLoopState) (l : String) :
    (dateBranch st l).bad_key_info = st.bad_key_info := by
  simp only [dateBranch]; split_ifs <;> rfl

@[simp] lemma keyBranch_date (fp : String) (st : NytLoopState) (l : String) :
    (keyBranch fp st l).publication_date = st.publication_date := rfl

/-- A line that does not trigger the `Key:` branch leaves `nyt_internal_id`
and `bad_key_info` untouched. -/
lemma nytLineStep_preserves_key (cfg : NytConfig) (fp : String) (st : NytLoopState)
    (l : String) (h : isKeyLine l = false) :
    (nytLineStep cfg fp st l).nyt_internal_id = st.nyt_internal_id ∧
    (nytLineStep cfg fp st l).bad_key_info = st.bad_key_info := by
  unfold isKeyLine at h
  simp only [nytLineStep, h, Bool.false_eq_true, if_false]
  split_ifs <;> simp

/-- A line that does not trigger the `Date:` branch leaves
`publication_date` untouched (the `Key:` branch writes other fields only). -/
lemma nytLineStep_preserves_date (cfg : NytConfig) (fp : String) (st : NytLoopState)
    (l : String) (h : isDateLine l = false) :
    (nytLineStep cfg fp st l).publication_date = st.publication_date := by
  unfold isDateLine at h
  simp only [nytLineStep, h, Bool.false_eq_true, if_false]
  split_ifs <;> simp

lemma keyBranch_warnings_append (fp : String) (st : NytLoopState) (l : String) :
    ∃ t, (keyBranch fp st l).warnings = st.warnings ++ t :=
  ⟨_, rfl⟩

lemma dateBranch_warnings_append (st : NytLoopState) (l : String) :
    ∃ t, (dateBranch st l).warnings = st.warnings ++ t := by
  simp only [dateBranch]
  split_ifs
  · exact ⟨[], (List.append_nil _).symm⟩
  · exact ⟨_, rfl⟩
  · exact ⟨_, rfl⟩

/-- Every loop branch only appends to `warnings`. -/
lemma nytLineStep_warnings_append (cfg : NytConfig) (fp : String) (st : NytLoopState)
    (l : String) : ∃ tail, (nytLineStep cfg fp st l).warnings = st.warnings ++ tail := by
  simp only [nytLineStep]
  split_ifs
  · exact ⟨[], (List.append_nil _).symm⟩
  · obtain ⟨t, ht⟩ := keyBranch_warnings_append fp st l
    exact ⟨t, by simpa using ht⟩
  · exact ⟨[], by simp⟩
  · obtain ⟨t, ht⟩ := dateBranch_warnings_append st l
    exact ⟨t, by simpa using ht⟩
  · exact ⟨[], by simp⟩
  · exact ⟨[], (List.append_nil _).symm⟩
  · exact ⟨[], by simp⟩
  · exact ⟨[], by simp⟩

/-- The `Key:` branch is taken exactly on key lines, setting
`nyt_internal_id` to the stripped value after the first colon and updating
`bad_key_info` by the empty/invalid/valid case split. -/
lemma nytLineStep_key_line (cfg : NytConfig) (fp : String) (st : NytLoopState)
    (l : String) (h : isKeyLine l = true) :
    (nytLineStep cfg fp st l).nyt_internal_id = some (pyStrip (afterFirstColon l)) ∧
    (nytLineStep cfg fp st l).bad_key_info =
      (let key := pyStrip (afterFirstColon l)
       if key = "" then some (key, fp, "Empty Key")
       else if is_valid_uuid key then st.bad_key_info
       else some (key, fp, "Invalid UUID")) := by
  unfold isKeyLine at h
  have hne : pyStrip l ≠ "" := pyStartsWith_ne_empty (p := "Key:") rfl h
  simp only [nytLineStep, hne, h, if_true, if_false]
  constructor
  · simp [keyBranch]
  · simp only [appendIfInText_bad]
    simp only [keyBranch]

/-- The `Date:` branch is taken exactly on date lines, setting
`publication_date` to the normalized value and leaving the key fields
untouched; a non-empty non-8-digit value appends the malformed-date
warning. -/
lemma nytLineStep_date_line (cfg : NytConfig) (fp : String) (st : NytLoopState)
    (l : String) (h : isDateLine l = true) :
    (nytLineStep cfg fp st l).publication_date =
      (let d := pyStrip (afterFirstColon l)
       if isEightDigits d then some (formatDate d) else none) ∧
    (pyStrip (afterFirstColon l) ≠ "" → isEightDigits (pyStrip (afterFirstColon l)) = false →
      (nytLineStep cfg fp st l).warnings = st.warnings ++
        ["Non-standard date format: '" ++ pyStrip (afterFirstColon l) ++ "'. Storing as NULL."]) := by
  unfold isDateLine at h
  have hne : pyStrip l ≠ "" := pyStartsWith_ne_empty (p := "Date:") rfl h
  have hk := not_key_of_date h
  have hh := not_headline_of_date h
  simp only [nytLineStep, hne, h, hk, hh, Bool.false_eq_true, if_true, if_false]
  constructor
  · simp only [appendIfInText_date]
    simp only [dateBranch]
    split_ifs <;> rfl
  · intro hv h8
    simp only [appendIfInText_warn]
    simp only [dateBranch]
    simp [h8, hv]

lemma pyStrip_data (s : String) :
    (pyStrip s).data = List.rdropWhile isPyWs (List.dropWhile isPyWs s.data) := rfl

lemma head?_dropWhile_false {α : Type} (p : α → Bool) (l : List α) :
    ∀ a, (l.dropWhile p).head? = some a → p a = false := by
  induction l with
  | nil => intro a h; simp at h
  | cons x xs ih =>
      intro a h
      by_cases hx : p x = true
      · rw [List.dropWhile_cons, if_pos hx] at h
        exact ih a h
      · rw [List.dropWhile_cons, if_neg hx] at h
        rw [List.head?_cons, Option.some_inj] at h
        subst h
        exact Bool.not_eq_true _ |>.mp hx

lemma dropWhile_eq_self_of_head? {α : Type} {p : α → Bool} {l : List α}
    (h : ∀ a, l.head? = some a → p a = false) : l.dropWhile p = l := by
  cases l with
  | nil => rfl
  | cons a as => simp [List.dropWhile_cons, h a rfl]

lemma strip_strip_chars (d : List Char) :
    List.rdropWhile isPyWs (List.dropWhile isPyWs
      (List.rdropWhile isPyWs (List.dropWhile isPyWs d)))
      = List.rdropWhile isPyWs (List.dropWhile isPyWs d) := by
  have h1 : List.dropWhile isPyWs
      (List.rdropWhile isPyWs (List.dropWhile isPyWs d))
      = List.rdropWhile isPyWs (List.dropWhile isPyWs d) := by
    apply dropWhile_eq_self_of_head?
    intro a ha
    obtain ⟨t, ht⟩ := List.rdropWhile_prefix isPyWs (List.dropWhile isPyWs d)
    have hwh : (List.dropWhile isPyWs d).head? = some a := by
      rw [← ht]
      cases hrd : List.rdropWhile isPyWs (List.dropWhile isPyWs d) with
      | nil => rw [hrd] at ha; exact absurd ha (by simp)
      | cons b bs =>
          rw [hrd] at ha
          rw [List.cons_append, List.head?_cons]
          rw [List.head?_cons] at ha
          exact ha
    exact head?_dropWhile_false isPyWs d a hwh
  rw [h1, List.rdropWhile_idempotent]

/-- Python `strip` is idempotent; `process_file_worker` hands the parser an
already-stripped block, which the parser strips again. -/
lemma pyStrip_idem (s : String) : pyStrip (pyStrip s) = pyStrip s :=
  congrArg String.mk (strip_strip_chars s.data)

/-- Lines without the `Key:` label leave the key fields of the scan state
unchanged. -/
lemma foldl_preserves_key (cfg : NytConfig) (fp : String) :
    ∀ (lines : List String) (st : NytLoopState),
      (∀ l ∈ lines, isKeyLine l = false) →
      (lines.foldl (nytLineStep cfg fp) st).nyt_internal_id = st.nyt_internal_id ∧
      (lines.foldl (nytLineStep cfg fp) st).bad_key_info = st.bad_key_info
  | [], _, _ => ⟨rfl, rfl⟩
  | l :: ls, st, h => by
      have h0 := nytLineStep_preserves_key cfg fp st l (h l (List.mem_cons_self l ls))
      have ih := foldl_preserves_key cfg fp ls (nytLineStep cfg fp st l)
        (fun x hx => h x (List.mem_cons_of_mem _ hx))
      simp only [List.foldl_cons]
      exact ⟨ih.1.trans h0.1, ih.2.trans h0.2⟩

/-- Lines without the `Date:` label leave `publication_date` unchanged. -/
lemma foldl_preserves_date (cfg : NytConfig) (fp : String) :
    ∀ (lines : List String) (st : NytLoopState),
      (∀ l ∈ lines, isDateLine l = false) →
      (lines.foldl (nytLineStep cfg fp) st).publication_date = st.publication_date
  | [], _, _ => rfl
  | l :: ls, st, h => by
      have h0 := nytLineStep_preserves_date cfg fp st l (h l (List.mem_cons_self l ls))
      have ih := foldl_preserves_date cfg fp ls (nytLineStep cfg fp st l)
        (fun x hx => h x (List.mem_cons_of_mem _ hx))
      simp only [List.foldl_cons]
      exact ih.trans h0

/-- The scan only ever appends to the warnings list. -/
lemma foldl_warnings_append (cfg : NytConfig) (fp : String) :
    ∀ (lines : List String) (st : NytLoopState),
      ∃ t, (lines.foldl (nytLineStep cfg fp) st).warnings = st.warnings ++ t
  | [], st => ⟨[], (List.append_nil st.warnings).symm⟩
  | l :: ls, st => by
      obtain ⟨t1, ht1⟩ := nytLineStep_warnings_append cfg fp st l
      obtain ⟨t2, ht2⟩ := foldl_warnings_append cfg fp ls (nytLineStep cfg fp st l)
      refine ⟨t1 ++ t2, ?_⟩
      simp only [List.foldl_cons]
      rw [ht2, ht1, List.append_assoc]

/-- Once `nyt_internal_id` is set, no later line unsets it. -/
lemma nytLineStep_key_isSome (cfg : NytConfig) (fp : String) (st : NytLoopState)
    (l : String) (h : st.nyt_internal_id.isSome = true) :
    ((nytLineStep cfg fp st l).nyt_internal_id).isSome = true := by
  cases hk : isKeyLine l with
  | false => rw [(nytLineStep_preserves_key cfg fp st l hk).1]; exact h
  | true => rw [(nytLineStep_key_line cfg fp st l hk).1]; rfl

lemma foldl_key_isSome (cfg : NytConfig) (fp : String) :
    ∀ (lines : List String) (st : NytLoopState), st.nyt_internal_id.isSome = true →
      ((lines.foldl (nytLineStep cfg fp) st).nyt_internal_id).isSome = true
  | [], _, h => h
  | l :: ls, st, h => by
      simp only [List.foldl_cons]
      exact foldl_key_isSome cfg fp ls _ (nytLineStep_key_isSome cfg fp st l h)

/-- If any line of the block carries the `Key:` label, the scan ends with a
key value. -/
lemma foldl_key_of_mem (cfg : NytConfig) (fp : String) :
    ∀ (lines : List String) (st : NytLoopState) (l : String),
      l ∈ lines → isKeyLine l = true →
      ((lines.foldl (nytLineStep cfg fp) st).nyt_internal_id).isSome = true
  | [], _, _, hm, _ => absurd hm (List.not_mem_nil _)
  | x :: ls, st, l, hm, hk => by
      simp only [List.foldl_cons]
      rcases List.mem_cons.mp hm with he | hm2
      · subst he
        exact foldl_key_isSome cfg fp ls _
          (by rw [(nytLineStep_key_line cfg fp st l hk).1]; rfl)
      · exact foldl_key_of_mem cfg fp ls _ l hm2 hk

lemma parse_eq_of_scan_none (cfg : NytConfig) (block fp : String)
    (h : (nytScan cfg fp block).nyt_internal_id = none) :
    parse_nyt_article cfg block fp =
      { record := none
        badKey := none
        warnings := (nytScan cfg fp block).warnings ++ (nytBodyPost (nytScan cfg fp block)).2
                    ++ ["No 'Key:' line found in this article block."] } := by
  simp only [parse_nyt_article, h]

lemma parse_eq_of_scan_some (cfg : NytConfig) (block fp k : String)
    (h : (nytScan cfg fp block).nyt_internal_id = some k) :
    parse_nyt_article cfg block fp =
      { record := some
          { source_filepath := fp
            headline := (nytScan cfg fp block).headline
            body := (nytBodyPost (nytScan cfg fp block)).1
            publication_date := (nytScan cfg fp block).publication_date
            nyt_internal_id := k
            nyt_country_codes := (nytScan cfg fp block).nyt_country_codes }
        badKey := (nytScan cfg fp block).bad_key_info
        warnings := (nytScan cfg fp block).warnings ++ (nytBodyPost (nytScan cfg fp block)).2 } := by
  simp only [parse_nyt_article, h]

/-- Central characterization: the parser returns no record exactly when the
block has no `Key:` line. -/
lemma parse_record_none_iff (cfg : NytConfig) (block fp : String) :
    (parse_nyt_article cfg block fp).record = none ↔
      ∀ l ∈ pySplitNl (pyStrip block), isKeyLine l = false := by
  constructor
  · intro h l hl
    cases hk : isKeyLine l with
    | false => rfl
    | true =>
      exfalso
      have hs : ((nytScan cfg fp block).nyt_internal_id).isSome = true :=
        foldl_key_of_mem cfg fp (pySplitNl (pyStrip block)) {} l hl hk
      obtain ⟨k, hk2⟩ := Option.isSome_iff_exists.mp hs
      rw [parse_eq_of_scan_some cfg block fp k hk2] at h
      simp at h
  · intro h
    have h0 : (nytScan cfg fp block).nyt_internal_id = none :=
      (foldl_preserves_key cfg fp (pySplitNl (pyStrip block)) {} h).1
    rw [parse_eq_of_scan_none cfg block fp h0]

lemma parse_badKey_none_of_record_none (cfg : NytConfig) (block fp : String)
    (h : (parse_nyt_article cfg block fp).record = none) :
    (parse_nyt_article cfg block fp).badKey = none := by
  have hk := (parse_record_none_iff cfg block fp).mp h
  have h0 : (nytScan cfg fp block).nyt_internal_id = none :=
    (foldl_preserves_key cfg fp (pySplitNl (pyStrip block)) {} hk).1
  rw [parse_eq_of_scan_none cfg block fp h0]

lemma nytBlocksAccum_single_keyless (cfg : NytConfig) (fp block : String)
    (h : ∀ l ∈ pySplitNl (pyStrip block), isKeyLine l = false) :
    nytBlocksAccum cfg fp [block] = ([], []) := by
  unfold nytBlocksAccum
  simp only [List.foldl_cons, List.foldl_nil]
  by_cases hb : pyStrip block = ""
  · simp [hb]
  · have hr : (parse_nyt_article cfg (pyStrip block) fp).record = none := by
      rw [parse_record_none_iff, pyStrip_idem]
      exact h
    simp [hb, hr]

/-- The sample NYT configuration used by concrete witnesses: the body markers
of the source's default configuration. -/
def sampleNytConfig : NytConfig :=
  { text_start_marker := ">>>>", text_end_marker := "<<<<" }

/-- C3: for every NYT article block containing no `Key:` line at all,
`parse_nyt_article` returns no record (`None`) and no bad-key tuple, so the
block contributes nothing to the loaded table or the bad-key table; and the
absence of a `Key:` line is the only condition that makes a whole block
unparseable (the record is absent exactly when no line starts with
`Key:`). -/
theorem C3_missing_key_line_means_no_record (cfg : NytConfig) (block fp : String) :
    ((parse_nyt_article cfg block fp).record = none ↔
        ∀ l ∈ pySplitNl (pyStrip block), isKeyLine l = false) ∧
    ((parse_nyt_article cfg block fp).record = none →
        (parse_nyt_article cfg block fp).badKey = none) ∧
    ((∀ l ∈ pySplitNl (pyStrip block), isKeyLine l = false) →
        nytBlocksAccum cfg fp [block] = ([], [])) :=
  ⟨parse_record_none_iff cfg block fp,
   parse_badKey_none_of_record_none cfg block fp,
   nytBlocksAccum_single_keyless cfg fp block⟩

/-- Witness for C3 at a concrete keyless block. -/
theorem C3_missing_key_line_means_no_record_witness :
    (parse_nyt_article sampleNytConfig "Headline: X\nDate: 20120101" "f.txt").record = none ∧
    (parse_nyt_article sampleNytConfig "Headline: X\nDate: 20120101" "f.txt").badKey = none ∧
    nytBlocksAccum sampleNytConfig "f.txt" ["Headline: X\nDate: 20120101"] = ([], []) := by
  have h := C3_missing_key_line_means_no_record sampleNytConfig
    "Headline: X\nDate: 20120101" "f.txt"
  have hk : ∀ l ∈ pySplitNl (pyStrip "Headline: X\nDate: 20120101"),
      isKeyLine l = false := by decide
  exact ⟨h.1.mpr hk, h.2.1 (h.1.mpr hk), h.2.2 hk⟩

/-- C2: for every NYT article block whose unique `Key:` line has an empty or
syntactically invalid value, `parse_nyt_article` returns both a record (with
`nyt_internal_id` set to the raw key value found) and a bad-key tuple with
reason `Empty Key` for an empty value and `Invalid UUID` for an invalid one;
the record is never discarded for a bad key. -/
theorem C2_bad_key_keeps_record (cfg : NytConfig) (block fp : String)
    (pre post : List String) (l : String)
    (hsplit : pySplitNl (pyStrip block) = pre ++ l :: post)
    (hpre : ∀ x ∈ pre, isKeyLine x = false)
    (hpost : ∀ x ∈ post, isKeyLine x = false)
    (hl : isKeyLine l = true) :
    (∃ rec, (parse_nyt_article cfg block fp).record = some rec ∧
        rec.nyt_internal_id = pyStrip (afterFirstColon l)) ∧
    (pyStrip (afterFirstColon l) = "" →
        (parse_nyt_article cfg block fp).badKey =
          some (pyStrip (afterFirstColon l), fp, "Empty Key")) ∧
    (pyStrip (afterFirstColon l) ≠ "" → is_valid_uuid (pyStrip (afterFirstColon l)) = false →
        (parse_nyt_article cfg block fp).badKey =
          some (pyStrip (afterFirstColon l), fp, "Invalid UUID")) := by
  have hkey : (nytScan cfg fp block).nyt_internal_id = some (pyStrip (afterFirstColon l)) := by
    unfold nytScan
    rw [hsplit, List.foldl_append, List.foldl_cons]
    have hpost2 := foldl_preserves_key cfg fp post
      (nytLineStep cfg fp (pre.foldl (nytLineStep cfg fp) {}) l) hpost
    rw [hpost2.1]
    exact (nytLineStep_key_line cfg fp (pre.foldl (nytLineStep cfg fp) {}) l hl).1
  have hbad : (nytScan cfg fp block).bad_key_info =
      (if pyStrip (afterFirstColon l) = ""
       then some (pyStrip (afterFirstColon l), fp, "Empty Key")
       else if is_valid_uuid (pyStrip (afterFirstColon l))
       then none
       else some (pyStrip (afterFirstColon l), fp, "Invalid UUID")) := by
    unfold nytScan
    rw [hsplit, List.foldl_append, List.foldl_cons]
    have hpre2 := foldl_preserves_key cfg fp pre ({} : NytLoopState) hpre
    have hpost2 := foldl_preserves_key cfg fp post
      (nytLineStep cfg fp (pre.foldl (nytLineStep cfg fp) {}) l) hpost
    rw [hpost2.2]
    rw [(nytLineStep_key_line cfg fp (pre.foldl (nytLineStep cfg fp) {}) l hl).2]
    simp only [hpre2.2]
  have hres := parse_eq_of_scan_some cfg block fp (pyStrip (afterFirstColon l)) hkey
  refine ⟨⟨_, by rw [hres], rfl⟩, ?_, ?_⟩
  · intro hv
    rw [hres]
    show (nytScan cfg fp block).bad_key_info = _
    rw [hbad, if_pos hv]
  · intro hv huuid
    rw [hres]
    show (nytScan cfg fp block).bad_key_info = _
    rw [hbad, if_neg hv, if_neg (by simp [huuid])]

/-- Witness for C2: an invalid-UUID key and an empty key, both keeping the
record. -/
theorem C2_bad_key_keeps_record_witness :
    (∃ rec, (parse_nyt_article sampleNytConfig "Key: not-a-uuid\nHeadline: X" "f.txt").record
        = some rec ∧ rec.nyt_internal_id = "not-a-uuid") ∧
    (parse_nyt_article sampleNytConfig "Key: not-a-uuid\nHeadline: X" "f.txt").badKey =
      some ("not-a-uuid", "f.txt", "Invalid UUID") ∧
    (∃ rec, (parse_nyt_article sampleNytConfig "Key:\nHeadline: X" "f.txt").record
        = some rec ∧ rec.nyt_internal_id = "") ∧
    (parse_nyt_article sampleNytConfig "Key:\nHeadline: X" "f.txt").badKey =
      some ("", "f.txt", "Empty Key") := by
  have h1 := C2_bad_key_keeps_record sampleNytConfig "Key: not-a-uuid\nHeadline: X" "f.txt"
    [] ["Headline: X"] "Key: not-a-uuid" (by decide) (by decide) (by decide) (by decide)
  have h2 := C2_bad_key_keeps_record sampleNytConfig "Key:\nHeadline: X" "f.txt"
    [] ["Headline: X"] "Key:" (by decide) (by decide) (by decide) (by decide)
  have hv1 : pyStrip (afterFirstColon "Key: not-a-uuid") = "not-a-uuid" := by decide
  have hv2 : pyStrip (afterFirstColon "Key:") = "" := by decide
  obtain ⟨⟨r1, hr1, hid1⟩, _, hb1⟩ := h1
  obtain ⟨⟨r2, hr2, hid2⟩, hb2e, _⟩ := h2
  refine ⟨⟨r1, hr1, hid1.trans hv1⟩, ?_, ⟨r2, hr2, hid2.trans hv2⟩, ?_⟩
  · have := hb1 (by decide) (by decide)
    rw [hv1] at this
    exact this
  · have := hb2e hv2
    rw [hv2] at this
    exact this

/-- C5: for every NYT article block with a unique `Date:` line, an exactly
8-digit value is stored reformatted by `formatDate` (the `YYYY-MM-DD`
shape); any other value — empty or malformed — is stored as null, a
malformed non-empty value additionally leaving a diagnostic warning; and the
record is never rejected because of the date (record presence depends only
on the presence of a `Key:` line). -/
theorem C5_date_normalization (cfg : NytConfig) (block fp : String)
    (pre post : List String) (l : String)
    (hsplit : pySplitNl (pyStrip block) = pre ++ l :: post)
    (hpost : ∀ x ∈ post, isDateLine x = false)
    (hl : isDateLine l = true) :
    ((nytScan cfg fp block).publication_date =
        (if isEightDigits (pyStrip (afterFirstColon l))
         then some (formatDate (pyStrip (afterFirstColon l))) else none)) ∧
    (∀ rec, (parse_nyt_article cfg block fp).record = some rec →
        rec.publication_date =
          (if isEightDigits (pyStrip (afterFirstColon l))
           then some (formatDate (pyStrip (afterFirstColon l))) else none)) ∧
    (pyStrip (afterFirstColon l) ≠ "" →
        isEightDigits (pyStrip (afterFirstColon l)) = false →
        ("Non-standard date format: '" ++ pyStrip (afterFirstColon l) ++ "'. Storing as NULL.")
          ∈ (parse_nyt_article cfg block fp).warnings) ∧
    ((parse_nyt_article cfg block fp).record = none ↔
        ∀ x ∈ pySplitNl (pyStrip block), isKeyLine x = false) := by
  have hdate : (nytScan cfg fp block).publication_date =
      (if isEightDigits (pyStrip (afterFirstColon l))
       then some (formatDate (pyStrip (afterFirstColon l))) else none) := by
    unfold nytScan
    rw [hsplit, List.foldl_append, List.foldl_cons]
    rw [foldl_preserves_date cfg fp post _ hpost]
    exact (nytLineStep_date_line cfg fp (pre.foldl (nytLineStep cfg fp) {}) l hl).1
  refine ⟨hdate, ?_, ?_, parse_record_none_iff cfg block fp⟩
  · intro rec hr
    cases hk : (nytScan cfg fp block).nyt_internal_id with
    | none =>
        rw [parse_eq_of_scan_none cfg block fp hk] at hr
        exact absurd hr (by simp)
    | some k =>
        rw [parse_eq_of_scan_some cfg block fp k hk] at hr
        have hrec := Option.some.inj hr
        rw [← hrec]
        exact hdate
  · intro hv h8
    have hwstep : (nytLineStep cfg fp (pre.foldl (nytLineStep cfg fp) {}) l).warnings =
        (pre.foldl (nytLineStep cfg fp) {}).warnings ++
          ["Non-standard date format: '" ++ pyStrip (afterFirstColon l) ++ "'. Storing as NULL."] :=
      (nytLineStep_date_line cfg fp (pre.foldl (nytLineStep cfg fp) {}) l hl).2 hv h8
    have hmem : ("Non-standard date format: '" ++ pyStrip (afterFirstColon l)
        ++ "'. Storing as NULL.") ∈ (nytScan cfg fp block).warnings := by
      unfold nytScan
      rw [hsplit, List.foldl_append, List.foldl_cons]
      obtain ⟨t, ht⟩ := foldl_warnings_append cfg fp post
        (nytLineStep cfg fp (pre.foldl (nytLineStep cfg fp) {}) l)
      rw [ht, hwstep]
      simp
    cases hk : (nytScan cfg fp block).nyt_internal_id with
    | none =>
        rw [parse_eq_of_scan_none cfg block fp hk]
        simp only [List.append_assoc]
        exact List.mem_append_left _ hmem
    | some k =>
        rw [parse_eq_of_scan_some cfg block fp k hk]
        exact List.mem_append_left _ hmem

/-- Witness for C5: an 8-digit date reformatted, and a malformed date stored
as null with its diagnostic, on concrete blocks. -/
theorem C5_date_normalization_witness :
    (nytScan sampleNytConfig "f.txt" "Key: abc\nDate: 20120101").publication_date
      = some "2012-01-01" ∧
    (∀ rec, (parse_nyt_article sampleNytConfig "Key: abc\nDate: 20120101" "f.txt").record
        = some rec → rec.publication_date = some "2012-01-01") ∧
    (∀ rec, (parse_nyt_article sampleNytConfig "Key: abc\nDate: 2012" "f.txt").record
        = some rec → rec.publication_date = none) ∧
    ("Non-standard date format: '" ++ "2012" ++ "'. Storing as NULL.")
      ∈ (parse_nyt_article sampleNytConfig "Key: abc\nDate: 2012" "f.txt").warnings := by
  have h1 := C5_date_normalization sampleNytConfig "Key: abc\nDate: 20120101" "f.txt"
    ["Key: abc"] [] "Date: 20120101" (by decide) (by decide) (by decide)
  have h2 := C5_date_normalization sampleNytConfig "Key: abc\nDate: 2012" "f.txt"
    ["Key: abc"] [] "Date: 2012" (by decide) (by decide) (by decide)
  have hv2 : pyStrip (afterFirstColon "Date: 2012") = "2012" := by decide
  refine ⟨h1.1.trans (by decide), fun rec hr => (h1.2.1 rec hr).trans (by decide),
          fun rec hr => (h2.2.1 rec hr).trans (by decide), ?_⟩
  have := h2.2.2.1 (by decide) (by decide)
  rw [hv2] at this
  exact this

/-- Python truthiness of an optional string field: `None` and the empty
string are falsy (used by `if extracted_section_from_title:` and
`elif article['section_code']:`, source lines 564-566). -/
def pyTruthy : Option String → Bool
  | some s => s ≠ ""
  | none => false

/-- Characters after the first `'['`. -/
def afterOpenBracket : List Char → List Char
  | [] => []
  | c :: cs => if c = '[' then cs else afterOpenBracket cs

/-- The bracket search `re.search(r'(.*?)(?::\s*)?\[(.*?)\]\s*$', line)` of
`extract_metadata_from_proquest` (source lines 514 and 534), applied to the
already-stripped raw title line, returning group 2 stripped.  On a stripped
line the pattern matches exactly when the line ends in `]` and contains an
earlier `[`; the lazy group 1 makes the `[` the first one in the line and
the `\]\s*$` anchor makes the `]` the final character, so group 2 is the
text strictly between the first `[` and the line-final `]`. -/
def sectionFromTitleLine (t : String) : Option String :=
  if t.data.getLast? == some ']' && t.data.dropLast.contains '[' then
    some (pyStrip ⟨afterOpenBracket t.data.dropLast⟩)
  else none

/-- The final section assignment of `extract_metadata_from_proquest`
(source lines 561-571), given the stripped raw title line (`None` when the
chunk has no title at all, source line 548) and the value of the separate
`Section:` field (`section_code`, source line 557): a truthy bracket token
from the title wins, else a truthy `section_code`, else null. -/
def proquestSection (raw_title_line : Option String) (section_code : Option String) :
    Option String :=
  let extracted_section_from_title := raw_title_line.bind sectionFromTitleLine
  if pyTruthy extracted_section_from_title then extracted_section_from_title
  else if pyTruthy section_code then section_code
  else none

/-- Characters after the last `'['`. -/
def afterLastOpenBracket (cs : List Char) : List Char :=
  (cs.reverse.takeWhile (fun c => c ≠ '[')).reverse

/-- Characters before the last `'['`. -/
def beforeLastOpenBracket (cs : List Char) : List Char :=
  (((cs.reverse.dropWhile (fun c => c ≠ '[')).drop 1)).reverse

/-- The trailing bracket token of a line: the text between the last `[` and
a line-final `]`. -/
def lastBracketToken (t : String) : Option String :=
  if t.data.getLast? == some ']' && t.data.dropLast.contains '[' then
    some (pyStrip ⟨afterLastOpenBracket t.data.dropLast⟩)
  else none

/-- Modelled from the claim's words (not from the source), for comparison
with `proquestSection`: the bracketed token trailing the title line takes
priority, with a trailing numeric-only bracket stripped and treated as a
page marker rather than a section; if no section comes from the title
brackets, the separate `Section:` field value is the fallback; otherwise
the section is null. -/
def sectionSpecC4 (raw_title_line : Option String) (section_code : Option String) :
    Option String :=
  let fromTitle : Option String :=
    match raw_title_line with
    | none => none
    | some t =>
        match lastBracketToken t with
        | none => none
        | some tok =>
            if tok ≠ "" && tok.data.all Char.isDigit then
              -- a page marker, not a section: strip it, then use whatever
              -- bracket token still trails the remaining title
              lastBracketToken (pyStrip ⟨beforeLastOpenBracket t.data⟩)
            else some tok
  if pyTruthy fromTitle then fromTitle
  else if pyTruthy section_code then section_code
  else none

/-- C4 counterexample: for the title line `Foo [28]` with a separate
`Section: Metro` field, the code takes the numeric bracket token `28` as
the section, while the claim's page-marker rule would fall back to
`Metro` — the claim as stated is false on the code. -/
theorem C4_counterexample_numeric_bracket :
    proquestSection (some "Foo [28]") (some "Metro") = some "28" ∧
    sectionSpecC4 (some "Foo [28]") (some "Metro") = some "Metro" ∧
    proquestSection (some "Foo [28]") (some "Metro") ≠
      sectionSpecC4 (some "Foo [28]") (some "Metro") :=
  ⟨by decide, by decide, by decide⟩

/-- C4 amended: the section precedence without any numeric page-marker
treatment — a nonempty bracket token trailing the title line (the text
between the first `[` and the line-final `]`, used verbatim even when
numeric-only) takes priority; if the title brackets yield no nonempty
token, a nonempty separate `Section:` field value is the fallback;
otherwise the section is null. -/
theorem C4_amended_section_precedence (t sc : Option String) :
    (pyTruthy (t.bind sectionFromTitleLine) = true →
        proquestSection t sc = t.bind sectionFromTitleLine) ∧
    (pyTruthy (t.bind sectionFromTitleLine) = false → pyTruthy sc = true →
        proquestSection t sc = sc) ∧
    (pyTruthy (t.bind sectionFromTitleLine) = false → pyTruthy sc = false →
        proquestSection t sc = none) := by
  refine ⟨?_, ?_, ?_⟩ <;> intro h1 <;> simp [proquestSection, h1]
  · intro h2
    simp [h2]
  · intro h2
    simp [h2]

/-- Witness for the amended C4 at the spec's concrete scenario and the two
fallback shapes. -/
theorem C4_amended_section_precedence_witness :
    proquestSection (some "Soldiers Clash [World]") none = some "World" ∧
    proquestSection (some "Plain title") (some "Metro") = some "Metro" ∧
    proquestSection (some "Plain title") none = none := by
  have h1 := C4_amended_section_precedence (some "Soldiers Clash [World]") none
  have h2 := C4_amended_section_precedence (some "Plain title") (some "Metro")
  have h3 := C4_amended_section_precedence (some "Plain title") none
  exact ⟨(h1.1 (by decide)).trans (by decide),
         h2.2.1 (by decide) (by decide),
         h3.2.2 (by decide) (by decide)⟩

/-- Python list slice `chunks[2:-1]`: drop the first two elements and the
last one. -/
def pySlice2ToLast (l : List String) : List String := (l.drop 2).dropLast

/-- The chunk-selection heuristic of `process_file_worker` for ProQuest
files (source line 925): `chunks[2:-1] if len(chunks) > 3 else [c for c in
chunks if c.strip()]`. -/
def articleChunksOf (chunks : List String) : List String :=
  if chunks.length > 3 then pySlice2ToLast chunks
  else chunks.filter (fun c => pyStrip c ≠ "")

/-- ProQuest chunking (source lines 920-925): split the decoded content on
the configured separator, then apply the heuristic. -/
def proquestArticleChunks (content separator : String) : List String :=
  articleChunksOf (pySplit content separator)

lemma pySlice2ToLast_length (l : List String) (h : l.length > 3) :
    (pySlice2ToLast l).length = l.length - 3 := by
  simp only [pySlice2ToLast, List.length_dropLast, List.length_drop]
  omega

lemma pySlice2ToLast_getElem (l : List String) (i : Nat) (h : i < l.length - 3) :
    (pySlice2ToLast l)[i]? = l[i + 2]? := by
  simp only [pySlice2ToLast, List.dropLast_eq_take, List.length_drop]
  rw [List.getElem?_take, if_pos (by omega), List.getElem?_drop, Nat.add_comm 2 i]

/-- C6: after splitting a ProQuest file on the article separator, when more
than three fragments result exactly the first two and the last are
discarded (the surviving chunks are the fragments at positions `2` through
`length - 2`, in order); with three or fewer fragments every non-blank
fragment is kept. -/
theorem C6_proquest_chunk_heuristic (content sep : String) :
    ((pySplit content sep).length > 3 →
      (proquestArticleChunks content sep).length = (pySplit content sep).length - 3 ∧
      ∀ i, i < (pySplit content sep).length - 3 →
        (proquestArticleChunks content sep)[i]? =
          (pySplit content sep)[i + 2]?) ∧
    ((pySplit content sep).length ≤ 3 →
      proquestArticleChunks content sep =
        (pySplit content sep).filter (fun c => pyStrip c ≠ "")) := by
  constructor
  · intro h
    have he : proquestArticleChunks content sep = pySlice2ToLast (pySplit content sep) := by
      simp [proquestArticleChunks, articleChunksOf, h]
    rw [he]
    exact ⟨pySlice2ToLast_length _ h, fun i hi => pySlice2ToLast_getElem _ i hi⟩
  · intro h
    simp [proquestArticleChunks, articleChunksOf, Nat.not_lt.mpr h]

/-- Witness for C6: a five-fragment file keeps the middle two fragments; a
three-fragment file keeps its non-blank fragments. -/
theorem C6_proquest_chunk_heuristic_witness :
    proquestArticleChunks "h1Xh2XaXbXf" "X" = ["a", "b"] ∧
    proquestArticleChunks "aX Xb" "X" = ["a", "b"] := by
  have h1 := (C6_proquest_chunk_heuristic "h1Xh2XaXbXf" "X").1 (by decide)
  have h2 := (C6_proquest_chunk_heuristic "aX Xb" "X").2 (by decide)
  refine ⟨?_, h2.trans (by decide)⟩
  have hlen : (proquestArticleChunks "h1Xh2XaXbXf" "X").length = 2 := h1.1.trans (by decide)
  have h0 := h1.2 0 (by decide)
  have hone := h1.2 1 (by decide)
  apply List.ext_getElem?
  intro i
  match i with
  | 0 => rw [h0]; decide
  | 1 => rw [hone]; decide
  | n + 2 => rw [List.getElem?_eq_none (by omega), List.getElem?_eq_none (by simp)]

/-- Outcome of one guarded parser call inside `process_file_worker`: the
`try` around the per-chunk parse either raises (caught at source lines
946-949 / 970-972, chunk skipped) or returns the parser's value — `none`
models a falsy return (`{}` for ProQuest, source line 938, or `None` for
NYT, source line 963), in which case nothing is appended, not even the
bad-key info (the bad-key append at line 967 is nested under
`if parsed_data`). -/
inductive ParseOutcome (ρ : Type)
  | raises
  | returns (record : Option ρ) (badKey : Option BadKey)

/-- Whether a parse outcome contributes a record to `parsed_articles`. -/
def ParseOutcome.contributes {ρ : Type} : ParseOutcome ρ → Bool
  | .raises => false
  | .returns none _ => false
  | .returns (some _) _ => true

/-- The per-chunk accumulation loop of `process_file_worker` (source lines
933-949 for ProQuest, 956-972 for NYT): blank chunks are skipped, the
parser is called on the stripped chunk, exceptions and falsy returns skip
the chunk, and a returned record is appended together with its bad-key
triple (if any). -/
def workerAccum {ρ : Type} (parse : String → ParseOutcome ρ) (chunks : List String) :
    List ρ × List BadKey :=
  chunks.foldl (fun acc chunk =>
    if pyStrip chunk = "" then acc
    else match parse (pyStrip chunk) with
      | .raises => acc
      | .returns none _ => acc
      | .returns (some r) bk => (acc.1 ++ [r], acc.2 ++ bk.toList)) ([], [])

/-- The chunk list the worker iterates over: the ProQuest heuristic split or
the plain NYT separator split (source lines 920-925, 951-953). -/
def workerChunks (isProquest : Bool) (content sep : String) : List String :=
  if isProquest then proquestArticleChunks content sep else pySplit content sep

/-- The parse-and-collect stage of `process_file_worker` after a successful
read (source lines 915-991 and 1042-1049): `none` when the ProQuest split
yields no chunks (line 928) or when no articles were successfully parsed
(line 991) — in which case no intermediate Parquet artifact is written —
otherwise the artifact contents (records and bad keys). -/
def process_file_worker_parse {ρ : Type} (parse : String → ParseOutcome ρ)
    (isProquest : Bool) (content sep : String) : Option (List ρ × List BadKey) :=
  let chunks := workerChunks isProquest content sep
  if isProquest && chunks.isEmpty then none
  else
    let acc := workerAccum parse chunks
    if acc.1.isEmpty then none else some acc

/-- The dispatcher keeps only non-`None` worker results (source lines
1199-1203); the loader reads rows and bad keys from those results only
(lines 1223-1228). -/
def collectResults {α : Type} (results : List (Option α)) : List α :=
  results.foldl (fun acc r => match r with | none => acc | some a => acc ++ [a]) []

lemma workerAccum_eq_of_no_contribution {ρ : Type} (parse : String → ParseOutcome ρ) :
    ∀ (chunks : List String) (acc : List ρ × List BadKey),
      (∀ c ∈ chunks, pyStrip c ≠ "" → (parse (pyStrip c)).contributes = false) →
      chunks.foldl (fun acc chunk =>
        if pyStrip chunk = "" then acc
        else match parse (pyStrip chunk) with
          | .raises => acc
          | .returns none _ => acc
          | .returns (some r) bk => (acc.1 ++ [r], acc.2 ++ bk.toList)) acc = acc
  | [], _, _ => rfl
  | c :: cs, acc, h => by
      simp only [List.foldl_cons]
      have hstep : (if pyStrip c = "" then acc
          else match parse (pyStrip c) with
            | .raises => acc
            | .returns none _ => acc
            | .returns (some r) bk => (acc.1 ++ [r], acc.2 ++ bk.toList)) = acc := by
        by_cases hc : pyStrip c = ""
        · simp [hc]
        · have := h c (List.mem_cons_self c cs) hc
          rw [if_neg hc]
          cases hp : parse (pyStrip c) with
          | raises => rfl
          | returns r bk =>
              cases r with
              | none => rfl
              | some x => rw [hp] at this; simp [ParseOutcome.contributes] at this
      rw [hstep]
      exact workerAccum_eq_of_no_contribution parse cs acc
        (fun x hx => h x (List.mem_cons_of_mem _ hx))

/-- C10: a file that is read successfully but in which no chunk contributes
a parsed record (every chunk is blank, raises, or returns nothing — for NYT
a missing key, for ProQuest an empty dict — or, for ProQuest, the split
heuristic leaves no chunks at all) makes `process_file_worker` return
`None`: no artifact is produced and the dispatcher-collected result list,
hence the load, receives nothing from this file. -/
theorem C10_zero_parsed_records_means_none {ρ : Type}
    (parse : String → ParseOutcome ρ) (isProquest : Bool) (content sep : String)
    (h : ∀ c ∈ workerChunks isProquest content sep,
      pyStrip c ≠ "" → (parse (pyStrip c)).contributes = false) :
    process_file_worker_parse parse isProquest content sep = none ∧
    (∀ rest : List (Option (List ρ × List BadKey)),
      collectResults (process_file_worker_parse parse isProquest content sep :: rest) =
        collectResults rest) := by
  have hacc : workerAccum parse (workerChunks isProquest content sep) = ([], []) :=
    workerAccum_eq_of_no_contribution parse (workerChunks isProquest content sep) ([], []) h
  have hnone : process_file_worker_parse parse isProquest content sep = none := by
    simp only [process_file_worker_parse, hacc]
    split_ifs <;> simp_all
  refine ⟨hnone, fun rest => ?_⟩
  rw [hnone]
  rfl

/-- The NYT parser as a worker parse outcome (never raises in the
embedding; the record is `None` exactly when the block has no key). -/
def nytParseOutcome (cfg : NytConfig) (fp : String) (block : String) :
    ParseOutcome NytRecord :=
  let r := parse_nyt_article cfg block fp
  .returns r.record r.badKey

/-- Witness for C10: a two-block NYT file whose blocks both lack a `Key:`
line produces no artifact and contributes nothing. -/
theorem C10_zero_parsed_records_means_none_witness :
    process_file_worker_parse (nytParseOutcome sampleNytConfig "f.txt") false
      "Headline: A\n=====\nHeadline: B" "=====" = none ∧
    collectResults [process_file_worker_parse (nytParseOutcome sampleNytConfig "f.txt") false
      "Headline: A\n=====\nHeadline: B" "====="] = [] := by
  have h := C10_zero_parsed_records_means_none
    (nytParseOutcome sampleNytConfig "f.txt") false "Headline: A\n=====\nHeadline: B" "====="
    (by decide)
  exact ⟨h.1, h.2 []⟩

/-- `ENCODING_FALLBACKS` (source line 65). -/
def ENCODING_FALLBACKS : List String := ["utf-8", "windows-1252", "iso-8859-1"]

/-- The detection gate (source lines 847-851): accept the detected encoding
only when it is truthy and the detection confidence exceeds 0.9 (chardet's
confidence, modelled as a rational). -/
def detectedEncodingGate (encoding : Option String) (confidence : ℚ) : Option String :=
  match encoding with
  | some e => if e ≠ "" ∧ confidence > 9/10 then some e else none
  | none => none

/-- Python `s.lower()` (ASCII range, which covers every encoding name the
reader compares). -/
def pyLower (s : String) : String :=
  ⟨s.data.map Char.toLower⟩

/-- Candidate-list construction (source lines 856-862): utf-8 first, then
the detected encoding when truthy and not (case-insensitively) utf-8, then
each fallback not already present case-insensitively. -/
def encodingsToTry (detected_encoding : Option String) : List String :=
  let l0 := ["utf-8"]
  let l1 := match detected_encoding with
    | some d => if d ≠ "" ∧ pyLower d ≠ "utf-8" then l0 ++ [d] else l0
    | none => l0
  ENCODING_FALLBACKS.foldl
    (fun acc enc =>
      if (acc.map pyLower).contains (pyLower enc) then acc else acc ++ [enc]) l1

/-- Abstract model of one file for the reading stage: the outcome of a
strict decode per encoding name, and the outcome of the final lossy utf-8
read (`errors='replace'`, source lines 898-906) — character substitution
never fails, so `lossyUtf8 = none` models only a filesystem-level error in
that final `open`/`read`. -/
structure FileReadModel where
  strictDecode : String → Option String
  lossyUtf8 : Option String

/-- First successful strict decode in candidate order (the `for enc in
encodings_to_try` loop with `break` on success, source lines 867-896; any
exception just moves on to the next candidate). -/
def firstSuccess (f : String → Option String) : List String → Option String
  | [] => none
  | e :: es => match f e with
    | some c => some c
    | none => firstSuccess f es

/-- The reading stage of `process_file_worker` (source lines 855-910): the
strict attempts in order, then the lossy utf-8 retry; `none` means the file
is skipped (source lines 908-910). -/
def readFileContent (fm : FileReadModel) (detected_encoding : Option String) :
    Option String :=
  match firstSuccess fm.strictDecode (encodingsToTry detected_encoding) with
  | some c => some c
  | none => fm.lossyUtf8

lemma firstSuccess_append_none (f : String → Option String) :
    ∀ (l1 : List String), (∀ x ∈ l1, f x = none) →
      ∀ l2, firstSuccess f (l1 ++ l2) = firstSuccess f l2
  | [], _, _ => rfl
  | x :: xs, h, l2 => by
      simp only [List.cons_append, firstSuccess, h x (List.mem_cons_self x xs)]
      exact firstSuccess_append_none f xs (fun y hy => h y (List.mem_cons_of_mem _ hy)) l2

lemma firstSuccess_none_iff (f : String → Option String) :
    ∀ l : List String, firstSuccess f l = none ↔ ∀ x ∈ l, f x = none
  | [] => by simp [firstSuccess]
  | x :: xs => by
      simp only [firstSuccess]
      cases hx : f x with
      | some c => simp [hx]
      | none =>
          rw [firstSuccess_none_iff f xs]
          constructor
          · intro h y hy
            rcases List.mem_cons.mp hy with rfl | hy2
            · exact hx
            · exact h y hy2
          · intro h y hy
            exact h y (List.mem_cons_of_mem _ hy)

lemma encodingsToTry_detected (d : String) (hne : d ≠ "") (hlow : pyLower d ≠ "utf-8") :
    encodingsToTry (some d) =
      ["utf-8", d] ++ (["windows-1252", "iso-8859-1"].filter (fun e => e ≠ pyLower d)) := by
  have e1 : pyLower "utf-8" = "utf-8" := by decide
  have e2 : pyLower "windows-1252" = "windows-1252" := by decide
  have e3 : pyLower "iso-8859-1" = "iso-8859-1" := by decide
  have n1 : "utf-8" ≠ "windows-1252" := by decide
  have n2 : "utf-8" ≠ "iso-8859-1" := by decide
  have n3 : "windows-1252" ≠ "iso-8859-1" := by decide
  by_cases h1 : pyLower d = "windows-1252"
  · simp [encodingsToTry, ENCODING_FALLBACKS, hne, hlow, h1, e1, e2, e3,
      n1, n2, n3, Ne.symm n1, Ne.symm n2, Ne.symm n3]
  · have h1s : ¬ ("windows-1252" = pyLower d) := fun h => h1 h.symm
    by_cases h2 : pyLower d = "iso-8859-1"
    · simp [encodingsToTry, ENCODING_FALLBACKS, hne, hlow, h1, h1s, h2, e1, e2, e3,
        n1, n2, n3, Ne.symm n1, Ne.symm n2, Ne.symm n3]
    · have h2s : ¬ ("iso-8859-1" = pyLower d) := fun h => h2 h.symm
      simp [encodingsToTry, ENCODING_FALLBACKS, hne, hlow, h1, h1s, h2, h2s, e1, e2, e3,
        n1, n2, n3, Ne.symm n1, Ne.symm n2, Ne.symm n3]

/-- C7: the reader tries strict decoding with the candidates in exactly the
order utf-8, then the detected encoding (only when the detection confidence
exceeds 0.9 and it differs case-insensitively from utf-8), then the fixed
fallbacks windows-1252 and iso-8859-1 with duplicates skipped, stopping at
the first success; when every strict attempt fails it falls back to the
lossy utf-8 read, so the file is excluded (`none`) exactly when every
strict attempt fails AND the lossy read itself fails — which models only a
filesystem-level error, never a decoding problem. -/
theorem C7_encoding_candidate_order_and_lossy_fallback :
    (∀ (d : String) (conf : ℚ), d ≠ "" → pyLower d ≠ "utf-8" → conf > 9/10 →
      encodingsToTry (detectedEncodingGate (some d) conf) =
        ["utf-8", d] ++ (["windows-1252", "iso-8859-1"].filter (fun e => e ≠ pyLower d))) ∧
    (∀ (e : String) (conf : ℚ), conf ≤ 9/10 →
      encodingsToTry (detectedEncodingGate (some e) conf) =
        ["utf-8", "windows-1252", "iso-8859-1"]) ∧
    (encodingsToTry none = ["utf-8", "windows-1252", "iso-8859-1"]) ∧
    (∀ (fm : FileReadModel) (det : Option String) (l1 : List String) (e : String)
        (l2 : List String) (c : String),
      encodingsToTry det = l1 ++ e :: l2 → (∀ x ∈ l1, fm.strictDecode x = none) →
      fm.strictDecode e = some c → readFileContent fm det = some c) ∧
    (∀ (fm : FileReadModel) (det : Option String),
      (∀ x ∈ encodingsToTry det, fm.strictDecode x = none) →
      readFileContent fm det = fm.lossyUtf8) ∧
    (∀ (fm : FileReadModel) (det : Option String),
      readFileContent fm det = none ↔
        ((∀ x ∈ encodingsToTry det, fm.strictDecode x = none) ∧ fm.lossyUtf8 = none)) := by
  refine ⟨?_, ?_, by decide, ?_, ?_, ?_⟩
  · intro d conf hne hlow hconf
    have hg : detectedEncodingGate (some d) conf = some d := by
      simp [detectedEncodingGate, hne, hconf]
    rw [hg]
    exact encodingsToTry_detected d hne hlow
  · intro e conf hconf
    have hg : detectedEncodingGate (some e) conf = none := by
      show (if e ≠ "" ∧ conf > 9/10 then some e else none) = none
      rw [if_neg (fun hc => absurd hc.2 (not_lt.mpr hconf))]
    rw [hg]
    decide
  · intro fm det l1 e l2 c hsplit h1 he
    unfold readFileContent
    rw [hsplit, firstSuccess_append_none fm.strictDecode l1 h1 (e :: l2)]
    simp [firstSuccess, he]
  · intro fm det hall
    unfold readFileContent
    rw [(firstSuccess_none_iff fm.strictDecode (encodingsToTry det)).mpr hall]
  · intro fm det
    unfold readFileContent
    cases hf : firstSuccess fm.strictDecode (encodingsToTry det) with
    | some c =>
        constructor
        · intro h; exact absurd h (by simp)
        · intro ⟨hall, _⟩
          rw [(firstSuccess_none_iff fm.strictDecode (encodingsToTry det)).mpr hall] at hf
          exact absurd hf (by simp)
    | none =>
        have hall := (firstSuccess_none_iff fm.strictDecode (encodingsToTry det)).mp hf
        constructor
        · intro h; exact ⟨hall, h⟩
        · intro ⟨_, h⟩; exact h

/-- Witness for C7 at concrete detections and file models: a confident
non-utf-8 detection is second in the list, an unconfident one is dropped; a
windows-1252-only file decodes with the third candidate; an undecodable
file degrades to the lossy read; only a failing lossy read excludes the
file. -/
theorem C7_encoding_candidate_order_and_lossy_fallback_witness :
    encodingsToTry (detectedEncodingGate (some "KOI8-R") (95/100)) =
      ["utf-8", "KOI8-R", "windows-1252", "iso-8859-1"] ∧
    encodingsToTry (detectedEncodingGate (some "KOI8-R") (1/2)) =
      ["utf-8", "windows-1252", "iso-8859-1"] ∧
    readFileContent
      { strictDecode := fun e => if e = "windows-1252" then some "TEXT" else none
        lossyUtf8 := some "LOSSY" } none = some "TEXT" ∧
    readFileContent { strictDecode := fun _ => none, lossyUtf8 := some "LOSSY" } none
      = some "LOSSY" ∧
    readFileContent { strictDecode := fun _ => none, lossyUtf8 := none } none = none := by
  have h := C7_encoding_candidate_order_and_lossy_fallback
  refine ⟨?_, h.2.1 "KOI8-R" (1/2) (by norm_num), ?_, ?_, ?_⟩
  · exact (h.1 "KOI8-R" (95/100) (by decide) (by decide) (by norm_num)).trans (by decide)
  · exact h.2.2.2.1 _ none ["utf-8"] "windows-1252" ["iso-8859-1"] "TEXT"
      (by decide) (by decide) (by decide)
  · exact h.2.2.2.2.1 { strictDecode := fun _ => none, lossyUtf8 := some "LOSSY" } none
      (by intro x _; rfl)
  · exact (h.2.2.2.2.2 { strictDecode := fun _ => none, lossyUtf8 := none } none).mpr
      ⟨by intro x _; rfl, rfl⟩

/-- `SELECT COALESCE(MAX(id), 0) FROM <target>` (source lines 1244, 1282):
the current maximum identifier, 0 for an empty table.  A `raw` table is
modelled by its identifier column. -/
def maxIdOf (tbl : List Nat) : Nat := tbl.foldl Nat.max 0

/-- The identifiers assigned by
`SELECT max_id_current + row_number() OVER () AS id` (source lines
1247-1252 and 1285-1290): `row_number()` is 1-based, so consolidated row
`i` (0-based) of `n` receives `max_id_current + (i + 1)`. -/
def newIds (max_id_current n : Nat) : List Nat :=
  (List.range n).map (fun i => max_id_current + (i + 1))

/-- The destination database as seen by the Bulk Loader: the two `raw`
tables' identifier columns and the bad-keys table rows. -/
structure DbState where
  pqTable : List Nat
  nytTable : List Nat
  badKeys : List BadKey
deriving DecidableEq, Repr

/-- One format group's transaction (source lines 1231-1264 for ProQuest,
1269-1302 for NYT): skipped with no artifacts for the format; otherwise the
consolidated rows (schema-union of the per-artifact row counts) are
inserted with `newIds` and committed — unless an exception occurs anywhere
inside the transaction (`raises = true`, consolidation or insert), in which
case `conn.rollback()` leaves the table unchanged and the transaction
reports failure.  Returns the table after the transaction and whether the
block left `overall_success` untouched. -/
def loadFormatGroup (tbl : List Nat) (artifactCounts : List Nat) (raises : Bool) :
    List Nat × Bool :=
  if artifactCounts.isEmpty then (tbl, true)
  else if raises then (tbl, false)
  else (tbl ++ newIds (maxIdOf tbl) artifactCounts.sum, true)

/-- One `INSERT OR IGNORE` step for a bad-key triple (source line 1316)
against the `UNIQUE (key, filepath, reason)` constraint (creation at source
lines 344-352): a triple already present is ignored. -/
def insertIgnoreOne (acc : List BadKey) (bk : BadKey) : List BadKey :=
  if bk ∈ acc then acc else acc ++ [bk]

/-- `executemany` of the `INSERT OR IGNORE` over the collected triples. -/
def insertIgnoreBadKeys (existing incoming : List BadKey) : List BadKey :=
  incoming.foldl insertIgnoreOne existing

/-- The inputs of one `load_articles_parallel` bulk-load stage: per-artifact
row counts per format, the collected bad-key triples, and whether each of
the three transactions raises. -/
structure LoadRun where
  pqCounts : List Nat
  nytCounts : List Nat
  badKeyBatch : List BadKey
  pqRaises : Bool
  nytRaises : Bool
  badKeysRaises : Bool

/-- The bulk-load stage of `load_articles_parallel` (source lines
1230-1326): the ProQuest transaction, then the NYT transaction, then the
bad-keys transaction, each attempted regardless of the previous outcomes;
a format transaction's failure flips `overall_success` to false, while a
bad-keys failure only rolls back the bad-keys insert (source lines
1319-1322, "Don't set overall_success to False"). -/
def load_articles_parallel (st : DbState) (run : LoadRun) : DbState × Bool :=
  let pqRes := loadFormatGroup st.pqTable run.pqCounts run.pqRaises
  let nytRes := loadFormatGroup st.nytTable run.nytCounts run.nytRaises
  let badRes :=
    if run.badKeyBatch.isEmpty then st.badKeys
    else if run.badKeysRaises then st.badKeys
    else insertIgnoreBadKeys st.badKeys run.badKeyBatch
  ({ pqTable := pqRes.1, nytTable := nytRes.1, badKeys := badRes }, pqRes.2 && nytRes.2)

lemma foldl_max_le_init : ∀ (l : List Nat) (b : Nat), b ≤ l.foldl Nat.max b
  | [], b => le_refl b
  | x :: xs, b => le_trans (Nat.le_max_left b x) (foldl_max_le_init xs (Nat.max b x))

lemma mem_le_foldl_max : ∀ (l : List Nat) (b : Nat), ∀ x ∈ l, x ≤ l.foldl Nat.max b
  | [], _, x, hx => absurd hx (List.not_mem_nil x)
  | y :: ys, b, x, hx => by
      rcases List.mem_cons.mp hx with rfl | h
      · exact le_trans (Nat.le_max_right b x) (foldl_max_le_init ys (Nat.max b x))
      · exact mem_le_foldl_max ys (Nat.max b y) x h

lemma le_maxIdOf (tbl : List Nat) (x : Nat) (hx : x ∈ tbl) : x ≤ maxIdOf tbl :=
  mem_le_foldl_max tbl 0 x hx

lemma maxIdOf_lt_of_mem_newIds (tbl : List Nat) (n : Nat) (y : Nat)
    (hy : y ∈ newIds (maxIdOf tbl) n) : maxIdOf tbl < y := by
  obtain ⟨i, _, rfl⟩ := List.mem_map.mp hy
  omega

/-- C1: a format-group run that commits (artifacts present and no
exception) appends exactly the rows with identifiers `max+1 .. max+N` where
`max` is the destination's pre-insert maximum (0 if empty) and `N` is the
number of consolidated rows: consecutive (no gaps), strictly increasing,
and colliding with no pre-existing identifier. -/
theorem C1_committed_load_id_assignment (tbl artifactCounts : List Nat)
    (hfiles : artifactCounts ≠ []) :
    loadFormatGroup tbl artifactCounts false =
      (tbl ++ newIds (maxIdOf tbl) artifactCounts.sum, true) ∧
    (∀ i, i < artifactCounts.sum →
      (newIds (maxIdOf tbl) artifactCounts.sum)[i]? = some (maxIdOf tbl + (i + 1))) ∧
    List.Chain' (· < ·) (newIds (maxIdOf tbl) artifactCounts.sum) ∧
    (∀ x ∈ tbl, ∀ y ∈ newIds (maxIdOf tbl) artifactCounts.sum, x < y) ∧
    (∀ x ∈ tbl, x ∉ newIds (maxIdOf tbl) artifactCounts.sum) := by
  refine ⟨?_, ?_, ?_, ?_, ?_⟩
  · have h0 : artifactCounts.isEmpty = false := by
      cases artifactCounts with
      | nil => exact absurd rfl hfiles
      | cons a as => rfl
    simp [loadFormatGroup, h0]
  · intro i hi
    rw [newIds, List.getElem?_map, List.getElem?_range hi]
    rfl
  · apply List.Pairwise.chain'
    exact (List.pairwise_lt_range _).map _ (fun a b hab => by omega)
  · intro x hx y hy
    exact lt_of_le_of_lt (le_maxIdOf tbl x hx) (maxIdOf_lt_of_mem_newIds tbl _ y hy)
  · intro x hx hmem
    exact absurd rfl (Nat.ne_of_lt (lt_of_le_of_lt (le_maxIdOf tbl x hx)
      (maxIdOf_lt_of_mem_newIds tbl _ x hmem)))

/-- Witness for C1 on a concrete pre-populated table (max id 9) and two
artifacts totalling three rows: ids 10, 11, 12 are appended. -/
theorem C1_committed_load_id_assignment_witness :
    loadFormatGroup [5, 2, 9] [2, 1] false = ([5, 2, 9, 10, 11, 12], true) ∧
    List.Chain' (· < ·) (newIds (maxIdOf [5, 2, 9]) ([2, 1] : List Nat).sum) ∧
    (∀ x ∈ ([5, 2, 9] : List Nat), x ∉ newIds (maxIdOf [5, 2, 9]) ([2, 1] : List Nat).sum) := by
  have h := C1_committed_load_id_assignment [5, 2, 9] [2, 1] (by decide)
  exact ⟨h.1.trans (by decide), h.2.2.1, h.2.2.2.2⟩

/-- C8: an exception inside one format group's transaction rolls back only
that format (its destination table is unchanged), marks the overall run
failed, and the other format's load and the bad-key pass still run exactly
as they would have on their own. -/
theorem C8_per_format_rollback (st : DbState) (run : LoadRun) :
    (run.pqRaises = true → run.pqCounts ≠ [] →
      (load_articles_parallel st run).1.pqTable = st.pqTable ∧
      (load_articles_parallel st run).2 = false ∧
      (load_articles_parallel st run).1.nytTable =
        (loadFormatGroup st.nytTable run.nytCounts run.nytRaises).1 ∧
      (load_articles_parallel st run).1.badKeys =
        (if run.badKeyBatch.isEmpty then st.badKeys
         else if run.badKeysRaises then st.badKeys
         else insertIgnoreBadKeys st.badKeys run.badKeyBatch)) ∧
    (run.nytRaises = true → run.nytCounts ≠ [] →
      (load_articles_parallel st run).1.nytTable = st.nytTable ∧
      (load_articles_parallel st run).2 = false ∧
      (load_articles_parallel st run).1.pqTable =
        (loadFormatGroup st.pqTable run.pqCounts run.pqRaises).1 ∧
      (load_articles_parallel st run).1.badKeys =
        (if run.badKeyBatch.isEmpty then st.badKeys
         else if run.badKeysRaises then st.badKeys
         else insertIgnoreBadKeys st.badKeys run.badKeyBatch)) := by
  constructor
  · intro hr hc
    have h0 : run.pqCounts.isEmpty = false := by
      cases h : run.pqCounts with
      | nil => exact absurd h hc
      | cons a as => rfl
    refine ⟨?_, ?_, rfl, rfl⟩
    · simp [load_articles_parallel, loadFormatGroup, h0, hr]
    · simp [load_articles_parallel, loadFormatGroup, h0, hr]
  · intro hr hc
    have h0 : run.nytCounts.isEmpty = false := by
      cases h : run.nytCounts with
      | nil => exact absurd h hc
      | cons a as => rfl
    refine ⟨?_, ?_, rfl, rfl⟩
    · simp [load_articles_parallel, loadFormatGroup, h0, hr]
    · simp [load_articles_parallel, loadFormatGroup, h0, hr]

/-- Witness for C8: with a ProQuest transaction that raises, the ProQuest
table is untouched, the run fails, and the NYT rows and bad keys are still
committed. -/
theorem C8_per_format_rollback_witness :
    (load_articles_parallel { pqTable := [3], nytTable := [7], badKeys := [] }
        { pqCounts := [2], nytCounts := [1], badKeyBatch := [("k", "f", "Invalid UUID")],
          pqRaises := true, nytRaises := false, badKeysRaises := false }).1.pqTable = [3] ∧
    (load_articles_parallel { pqTable := [3], nytTable := [7], badKeys := [] }
        { pqCounts := [2], nytCounts := [1], badKeyBatch := [("k", "f", "Invalid UUID")],
          pqRaises := true, nytRaises := false, badKeysRaises := false }).2 = false ∧
    (load_articles_parallel { pqTable := [3], nytTable := [7], badKeys := [] }
        { pqCounts := [2], nytCounts := [1], badKeyBatch := [("k", "f", "Invalid UUID")],
          pqRaises := true, nytRaises := false, badKeysRaises := false }).1.nytTable = [7, 8] ∧
    (load_articles_parallel { pqTable := [3], nytTable := [7], badKeys := [] }
        { pqCounts := [2], nytCounts := [1], badKeyBatch := [("k", "f", "Invalid UUID")],
          pqRaises := true, nytRaises := false, badKeysRaises := false }).1.badKeys =
      [("k", "f", "Invalid UUID")] := by
  have h := (C8_per_format_rollback { pqTable := [3], nytTable := [7], badKeys := [] }
      { pqCounts := [2], nytCounts := [1], badKeyBatch := [("k", "f", "Invalid UUID")],
        pqRaises := true, nytRaises := false, badKeysRaises := false }).1 rfl (by decide)
  exact ⟨h.1, h.2.1, h.2.2.1.trans (by decide), h.2.2.2.trans (by decide)⟩

lemma mem_insertIgnoreOne (acc : List BadKey) (i x : BadKey) :
    x ∈ insertIgnoreOne acc i ↔ x ∈ acc ∨ x = i := by
  unfold insertIgnoreOne
  split_ifs with h
  · constructor
    · exact Or.inl
    · rintro (hx | rfl)
      · exact hx
      · exact h
  · simp [List.mem_append]

lemma nodup_insertIgnoreOne (acc : List BadKey) (i : BadKey) (h : acc.Nodup) :
    (insertIgnoreOne acc i).Nodup := by
  unfold insertIgnoreOne
  split_ifs with hi
  · exact h
  · simp [List.nodup_append, h, hi]

lemma mem_insertIgnoreBadKeys : ∀ (incoming existing : List BadKey) (x : BadKey),
    x ∈ insertIgnoreBadKeys existing incoming ↔ x ∈ existing ∨ x ∈ incoming
  | [], existing, x => by simp [insertIgnoreBadKeys]
  | i :: rest, existing, x => by
      show x ∈ insertIgnoreBadKeys (insertIgnoreOne existing i) rest ↔ _
      rw [mem_insertIgnoreBadKeys rest (insertIgnoreOne existing i) x, mem_insertIgnoreOne]
      simp only [List.mem_cons]
      tauto

lemma nodup_insertIgnoreBadKeys : ∀ (incoming existing : List BadKey),
    existing.Nodup → (insertIgnoreBadKeys existing incoming).Nodup
  | [], _, h => h
  | i :: rest, existing, h =>
      nodup_insertIgnoreBadKeys rest _ (nodup_insertIgnoreOne existing i h)

lemma insertIgnoreBadKeys_subset_noop : ∀ (incoming existing : List BadKey),
    (∀ x ∈ incoming, x ∈ existing) → insertIgnoreBadKeys existing incoming = existing
  | [], _, _ => rfl
  | i :: rest, existing, h => by
      show insertIgnoreBadKeys (insertIgnoreOne existing i) rest = existing
      rw [show insertIgnoreOne existing i = existing from by
        simp [insertIgnoreOne, h i (List.mem_cons_self i rest)]]
      exact insertIgnoreBadKeys_subset_noop rest existing
        (fun x hx => h x (List.mem_cons_of_mem _ hx))

/-- C9: bad-key persistence uses the insert-ignoring-conflicts pattern
against the (key, filepath, reason) uniqueness, so re-inserting the same
batch changes nothing (idempotent across repeated ingestion), a
duplicate-free table stays duplicate-free while receiving exactly the union
of old and incoming triples, and a failure of the bad-keys transaction
leaves the table unchanged and never changes the overall success of the
load. -/
theorem C9_bad_keys_idempotent_nonfatal :
    (∀ existing incoming : List BadKey,
      insertIgnoreBadKeys (insertIgnoreBadKeys existing incoming) incoming =
        insertIgnoreBadKeys existing incoming) ∧
    (∀ existing incoming : List BadKey, existing.Nodup →
      (insertIgnoreBadKeys existing incoming).Nodup) ∧
    (∀ (existing incoming : List BadKey) (bk : BadKey),
      bk ∈ insertIgnoreBadKeys existing incoming ↔ bk ∈ existing ∨ bk ∈ incoming) ∧
    (∀ (st : DbState) (run : LoadRun), run.badKeysRaises = true →
      (load_articles_parallel st run).1.badKeys = st.badKeys) ∧
    (∀ (st : DbState) (run : LoadRun) (b : Bool),
      (load_articles_parallel st { run with badKeysRaises := b }).2 =
        (load_articles_parallel st run).2) := by
  refine ⟨?_, ?_, ?_, ?_, ?_⟩
  · intro existing incoming
    exact insertIgnoreBadKeys_subset_noop incoming _
      (fun x hx => (mem_insertIgnoreBadKeys incoming existing x).mpr (Or.inr hx))
  · intro existing incoming h
    exact nodup_insertIgnoreBadKeys incoming existing h
  · intro existing incoming bk
    exact mem_insertIgnoreBadKeys incoming existing bk
  · intro st run hr
    simp only [load_articles_parallel, hr]
    split_ifs <;> rfl
  · intro st run b
    rfl

/-- Witness for C9: re-ingesting a duplicated triple leaves one stored row;
a raising bad-keys pass leaves the table as it was and the success flag as
it was. -/
theorem C9_bad_keys_idempotent_nonfatal_witness :
    insertIgnoreBadKeys
        (insertIgnoreBadKeys [] [("k", "f", "Empty Key"), ("k", "f", "Empty Key")])
        [("k", "f", "Empty Key"), ("k", "f", "Empty Key")] = [("k", "f", "Empty Key")] ∧
    (insertIgnoreBadKeys [] [("k", "f", "Empty Key"), ("k", "f", "Empty Key")]).Nodup ∧
    (load_articles_parallel { pqTable := [], nytTable := [], badKeys := [("a", "b", "c")] }
        { pqCounts := [], nytCounts := [1], badKeyBatch := [("k", "f", "Empty Key")],
          pqRaises := false, nytRaises := false, badKeysRaises := true }).1.badKeys =
      [("a", "b", "c")] ∧
    (load_articles_parallel { pqTable := [], nytTable := [], badKeys := [("a", "b", "c")] }
        { pqCounts := [], nytCounts := [1], badKeyBatch := [("k", "f", "Empty Key")],
          pqRaises := false, nytRaises := false, badKeysRaises := true }).2 =
      (load_articles_parallel { pqTable := [], nytTable := [], badKeys := [("a", "b", "c")] }
        { pqCounts := [], nytCounts := [1], badKeyBatch := [("k", "f", "Empty Key")],
          pqRaises := false, nytRaises := false, badKeysRaises := false }).2 := by
  have h := C9_bad_keys_idempotent_nonfatal
  refine ⟨(h.1 [] _).trans (by decide),
          h.2.1 [] _ List.nodup_nil,
          h.2.2.2.1 _ _ rfl, ?_⟩
  exact h.2.2.2.2 { pqTable := [], nytTable := [], badKeys := [("a", "b", "c")] }
    { pqCounts := [], nytCounts := [1], badKeyBatch := [("k", "f", "Empty Key")],
      pqRaises := false, nytRaises := false, badKeysRaises := false } true

end Pipeline
